import Mathlib

/-! Verification development for the petfinder-dashboard repository.

Shallow embedding of the core components described by the spec:
  * `PetfinderClient` token lifecycle and 401-retry logic
    (backend/app/pf_client.py),
  * `iter_animals` pagination (backend/app/pf_client.py),
  * `parse_petfinder_ts`, `_row`, `build_upsert_sql` and the ETL `main`
    (etl/sample_query.py).

External effects (wall clock, HTTP responses, token-exchange responses,
database engine) are passed in as explicit parameters, so every embedded
operation is a pure, executable Lean function.
-/

set_option autoImplicit false
set_option maxRecDepth 40000

namespace Petfinder

/-! API client: token lifecycle (backend/app/pf_client.py) -/

/-- Client state relevant to authentication: `self._token : str | None` and
`self._token_exp : float` (epoch seconds, here modelled as `Int`).
Initially `_token = None`, `_token_exp = 0`. -/
structure ClientState where
  token : Option String
  token_exp : Int
  deriving Repr, DecidableEq

/-- The initial state set by `PetfinderClient.__init__`:
`self._token = None`, `self._token_exp = 0.0`. -/
def initClientState : ClientState := { token := none, token_exp := 0 }

/-- Body of the token-exchange JSON response: `access_token` (required by the
code: `data["access_token"]`) and optional `expires_in`
(`data.get("expires_in", 3600)`). -/
structure TokenResponse where
  access_token : String
  expires_in : Option Int
  deriving Repr, DecidableEq

/-- Python truthiness of `self._token` in the guard
`if self._token and (time.time() < self._token_exp - 60)`:
`None` and the empty string are falsy. -/
def truthyToken : Option String → Bool
  | none => false
  | some t => !(t == "")

/-- Embedding of `PetfinderClient._ensure_token`.

`now` is the value of `time.time()` and `resp` the token-exchange response the
authentication endpoint would return if the exchange is performed.  Returns the
new state together with `true` iff a token exchange was performed.

```python
if self._token and (time.time() < self._token_exp - 60):
    return
...POST /oauth2/token...
self._token = data["access_token"]
self._token_exp = time.time() + int(data.get("expires_in", 3600))
``` -/
def ensure_token (st : ClientState) (now : Int) (resp : TokenResponse) :
    ClientState × Bool :=
  if truthyToken st.token ∧ now < st.token_exp - 60 then
    (st, false)
  else
    ({ token := some resp.access_token,
       token_exp := now + resp.expires_in.getD 3600 }, true)

/-! API client: `_get` with single 401 retry -/

/-- An HTTP response to a data GET: status code and (abstract) JSON body. -/
structure HttpResp where
  status : Int
  body : String
  deriving Repr, DecidableEq

/-- Embedding of `requests.Response.raise_for_status`: it raises for any status `>= 400`;
a response is surfaced to the caller only below that. -/
def isSuccess (status : Int) : Bool := status < 400

/-- Outcome of one `_get` call: the surfaced result (`Except` carries the
status of the response whose `raise_for_status` raised), the state after the
call, the bearer tokens attached to each GET issued (in order), and how many
token exchanges were performed. -/
structure GetOutcome where
  result : Except Int String
  finalState : ClientState
  usedTokens : List (Option String)
  exchanges : Nat
  deriving Repr

/-- Embedding of `PetfinderClient._get`.

`tok1` is the token-exchange response available before the first GET, `tok2`
the one available for the refresh after a 401.  `r1` is the server's response
to the first GET and `r2` its response to the retried GET (consulted only when
the first response is a 401).

```python
resp = self._session.get(url, headers=self._headers(), ...)
if resp.status_code == 401:
    self._token = None
    resp = self._session.get(url, headers=self._headers(), ...)
resp.raise_for_status()
return resp.json()
``` -/
def get (st : ClientState) (now : Int) (tok1 tok2 : TokenResponse)
    (r1 r2 : HttpResp) : GetOutcome :=
  let eh1 := ensure_token st now tok1
  let st1 := eh1.1
  let ex1 : Nat := if eh1.2 then 1 else 0
  if r1.status = 401 then
    -- token might be expired/invalid; refresh once
    let stInval : ClientState := { st1 with token := none }
    let eh2 := ensure_token stInval now tok2
    let st2 := eh2.1
    let ex2 : Nat := if eh2.2 then 1 else 0
    { result := if isSuccess r2.status then .ok r2.body else .error r2.status
      finalState := st2
      usedTokens := [st1.token, st2.token]
      exchanges := ex1 + ex2 }
  else
    { result := if isSuccess r1.status then .ok r1.body else .error r1.status
      finalState := st1
      usedTokens := [st1.token]
      exchanges := ex1 }

/-! API client: `iter_animals` pagination (backend/app/pf_client.py) -/

/-- An animal record.  `iter_animals` yields the raw JSON dicts unchanged, so
for pagination purposes a record is opaque; we tag it with an integer id. -/
structure Animal where
  id : Int
  deriving Repr, DecidableEq

/-- The `pagination` object of a page response; both counters optional
(`pg.get("current_page", ...)`, `pg.get("total_pages", ...)`). -/
structure PageCursor where
  current_page : Option Int
  total_pages : Option Int
  deriving Repr, DecidableEq

/-- One page response of the `/animals` endpoint.  `animals = none` models an
absent `animals` key (`data.get("animals", [])`); `pagination = none` models an
absent-or-null `pagination` key (`data.get("pagination") or {}` collapses both
to `{}`). -/
structure PageResp where
  animals : Option (List Animal)
  pagination : Option PageCursor
  deriving Repr, DecidableEq

/-- The record array of a page: `data.get("animals", [])`. -/
def animalsOf (r : PageResp) : List Animal := r.animals.getD []

/-- Source: `cur = int(pg.get("current_page", q["page"]))` where `page` is the page
the request was issued for. -/
def curOf (r : PageResp) (page : Int) : Int :=
  ((r.pagination.getD ⟨none, none⟩).current_page).getD page

/-- Source: `total = int(pg.get("total_pages", cur))`. -/
def totalOf (r : PageResp) (page : Int) : Int :=
  ((r.pagination.getD ⟨none, none⟩).total_pages).getD (curOf r page)

/-- The loop's break test `if cur >= total: break`, evaluated on the response
to the request for `page`. -/
def stopAt (r : PageResp) (page : Int) : Bool := totalOf r page ≤ curOf r page

/-- The initial query of `iter_animals`:
`q = {"limit": 100, "page": 1}; q.update(params)`, so a caller-supplied
`limit` (or `page`) overrides the default. -/
def initQuery (limitParam pageParam : Option Int) : Int × Int :=
  (limitParam.getD 100, pageParam.getD 1)

/-- Embedding of the `while True` loop of `PetfinderClient.iter_animals`,
run against an explicit finite supply of server responses consumed one per
request.  Returns `(yielded, trace, done)` where `trace` pairs each requested
page with the response the server returned for it, `yielded` is the sequence
of records the generator produced, and `done = true` iff the loop hit its
`break` within the supplied responses (with `done = false` the generator
would issue a further request for which no response was supplied).

```python
while True:
    data = self._get("/animals", params=q)
    for animal in data.get("animals", []):
        yield animal
    pg = data.get("pagination") or {}
    cur = int(pg.get("current_page", q["page"]))
    total = int(pg.get("total_pages", cur))
    if cur >= total:
        break
    q["page"] = cur + 1
``` -/
def iter_animals : List PageResp → Int → List Animal × List (Int × PageResp) × Bool
  | [], _ => ([], [], false)
  | r :: rest, page =>
      if stopAt r page then
        (animalsOf r, [(page, r)], true)
      else
        let next := iter_animals rest (curOf r page + 1)
        (animalsOf r ++ next.1, (page, r) :: next.2.1, next.2.2)

/-- The sequence of pages requested during a run. -/
def requestedPages (rs : List PageResp) (page : Int) : List Int :=
  (iter_animals rs page).2.1.map Prod.fst

/-- An honest server reports, for a request for page `p`, a `current_page`
that is at least `p` (a real server reports exactly `p`); stated along the
run's own page sequence. -/
def honest : List PageResp → Int → Bool
  | [], _ => true
  | r :: rest, page => page ≤ curOf r page && honest rest (curOf r page + 1)

/-! Timestamp normalizer (etl/sample_query.py, `parse_petfinder_ts`) -/

/-- Python `str.strip()`: drop leading and trailing whitespace. -/
def pyStrip (s : String) : String :=
  String.mk
    (((s.toList.dropWhile Char.isWhitespace).reverse.dropWhile
        Char.isWhitespace).reverse)

/-- The regex rewrite
`re.sub(r"([+-]\d{2})(\d{2})$", r"\1:\2", ts.strip())` applied after strip:
when the last five characters are a sign followed by four digits, a colon is
inserted between the two digit pairs; otherwise the string is unchanged. -/
def fixOffsetColon (s : String) : String :=
  let cs := s.toList
  let n := cs.length
  match cs.drop (n - 5) with
  | [sgn, a, b, c, d] =>
      if (sgn == '+' || sgn == '-') && a.isDigit && b.isDigit && c.isDigit
          && d.isDigit then
        String.mk (cs.take (n - 5) ++ [sgn, a, b, ':', c, d])
      else s
  | _ => s

/-- Numeric value of a decimal digit character. -/
def digitVal (c : Char) : Option Nat :=
  if c.isDigit then some (c.toNat - 48) else none

/-- Two decimal digits. -/
def parse2 (a b : Char) : Option Nat := do
  let x1 ← digitVal a
  let x2 ← digitVal b
  pure (x1 * 10 + x2)

/-- Four decimal digits. -/
def parse4 (a b c d : Char) : Option Nat := do
  let x1 ← parse2 a b
  let x2 ← parse2 c d
  pure (x1 * 100 + x2)

/-- Proleptic-Gregorian leap-year rule used by `datetime`. -/
def isLeap (y : Nat) : Bool := (y % 4 == 0 && y % 100 != 0) || y % 400 == 0

/-- Length of month `m` in year `y`. -/
def daysInMonth (y m : Nat) : Nat :=
  if m == 2 then (if isLeap y then 29 else 28)
  else if m == 4 || m == 6 || m == 9 || m == 11 then 30
  else 31

/-- An offset-aware civil date-time: wall-clock fields plus a UTC offset in
minutes, as produced by parsing an ISO-8601 string with offset. -/
structure AwareDT where
  year : Nat
  month : Nat
  day : Nat
  hour : Nat
  minute : Nat
  second : Nat
  offMinutes : Int
  deriving Repr, DecidableEq

/-- A trailing UTC offset: `Z`, or `±HH:MM` with `HH ≤ 23`, `MM ≤ 59`. -/
def parseOffset : List Char → Option Int
  | ['Z'] => some 0
  | [sgn, h1, h2, ':', m1, m2] => do
      let hh ← parse2 h1 h2
      let mm ← parse2 m1 m2
      if hh ≤ 23 && mm ≤ 59 then
        let total : Int := hh * 60 + mm
        if sgn == '+' then pure total
        else if sgn == '-' then pure (-total)
        else none
      else none
  | _ => none

/-- Modelled from the spec: `datetime.datetime.fromisoformat` (standard
library, not part of src/) restricted to offset-aware inputs — "parse as an
offset-aware instant".  Accepts `YYYY-MM-DD<sep>HH:MM:SS` with separator `T`
or space followed by a UTC offset (`Z` or `±HH:MM`), validating calendar
ranges; anything else is a parse failure (`ValueError` in the source). -/
def fromisoformat (s : String) : Option AwareDT :=
  match s.toList with
  | y1 :: y2 :: y3 :: y4 :: '-' :: m1 :: m2 :: '-' :: d1 :: d2 :: sep ::
    h1 :: h2 :: ':' :: n1 :: n2 :: ':' :: s1 :: s2 :: rest => do
      let y ← parse4 y1 y2 y3 y4
      let mo ← parse2 m1 m2
      let da ← parse2 d1 d2
      let hh ← parse2 h1 h2
      let mi ← parse2 n1 n2
      let ss ← parse2 s1 s2
      let off ← parseOffset rest
      if (sep == 'T' || sep == ' ') && 1 ≤ y && 1 ≤ mo && mo ≤ 12 && 1 ≤ da
          && da ≤ daysInMonth y mo && hh ≤ 23 && mi ≤ 59 && ss ≤ 59 then
        pure ⟨y, mo, da, hh, mi, ss, off⟩
      else none
  | _ => none

/-- Days from 1970-01-01 to the civil date `y-m-d` (standard
days-from-civil computation; all intermediate quantities are nonnegative for
the validated year range `1 ≤ y ≤ 9999`). -/
def daysFromCivil (y m d : Int) : Int :=
  let y' := if m ≤ 2 then y - 1 else y
  let era := (if 0 ≤ y' then y' else y' - 399) / 400
  let yoe := y' - era * 400
  let mp := (m + 9) % 12
  let doy := (153 * mp + 2) / 5 + d - 1
  let doe := yoe * 365 + yoe / 4 - yoe / 100 + doy
  era * 146097 + doe - 719468

/-- The UTC instant (as epoch seconds) with the given UTC wall-clock
fields: the canonical representation of an instant such as
`2025-08-16 12:28:02Z`. -/
def utcEpoch (y mo d h mi s : Nat) : Int :=
  daysFromCivil y mo d * 86400 + (h * 3600 + mi * 60 + s : Nat)

/-- Embedding of `dt_obj.astimezone(dt.timezone.utc)` on an offset-aware value: the instant
it denotes, i.e. its wall-clock reading minus its offset. -/
def toUTCEpoch (d : AwareDT) : Int :=
  utcEpoch d.year d.month d.day d.hour d.minute d.second - d.offMinutes * 60

/-- The `ValueError` that `datetime.fromisoformat` raises on malformed input;
`parse_petfinder_ts` does not catch it. -/
inductive TsError where
  | parseError
  deriving Repr, DecidableEq

/-- Embedding of `parse_petfinder_ts`.

```python
if not ts:
    return None
norm = re.sub(r"([+-]\d{2})(\d{2})$", r"\1:\2", ts.strip())
dt_obj = dt.datetime.fromisoformat(norm)  # tz-aware
return dt_obj.astimezone(dt.timezone.utc)
```

`none`/`""` (Python falsy) map to `ok none`; a string the parser rejects
after the offset rewrite propagates as `error` (the uncaught `ValueError`);
otherwise the result is the denoted UTC instant. -/
def parse_petfinder_ts (ts : Option String) : Except TsError (Option Int) :=
  match ts with
  | none => .ok none
  | some s =>
      if s == "" then .ok none
      else
        let norm := fixOffsetColon (pyStrip s)
        match fromisoformat norm with
        | none => .error .parseError
        | some d => .ok (some (toUTCEpoch d))

/-! Row mapper (etl/sample_query.py, `_row`) -/

/-- The nested `address` object of a raw record's `contact`. -/
structure Address where
  city : Option String
  state : Option String
  deriving Repr, DecidableEq

/-- The nested `contact` object of a raw record. -/
structure Contact where
  address : Option Address
  deriving Repr, DecidableEq

/-- A raw animal JSON object, restricted to the keys `_row` reads.  `Option`
at `contact`/`address` level covers both an absent key and a `null`/falsy
value, which the source collapses with `a.get("contact") or {}` and
`contact.get("address") or {}`. -/
structure RawAnimal where
  id : Int
  name : Option String
  type : Option String
  age : Option String
  gender : Option String
  status : Option String
  organization_id : Option String
  contact : Option Contact
  published_at : Option String
  status_changed_at : Option String
  deriving Repr, DecidableEq

/-- A DB-ready row of `tmp_animals_sample` (the Normalized Row of the spec);
the three timestamp columns hold UTC instants as epoch seconds. -/
structure Row where
  id : Int
  name : Option String
  type : Option String
  age : Option String
  gender : Option String
  status : Option String
  org_id : Option String
  city : Option String
  state : Option String
  published_at : Option Int
  status_changed_at : Option Int
  fetched_at : Int
  deriving Repr, DecidableEq

/-- Embedding of `_row`.  `now` is the value of
`dt.datetime.now(dt.timezone.utc)` at mapping time; a `ValueError` from
either timestamp parse propagates.

```python
contact = a.get("contact") or {}
address = contact.get("address") or {}
return {"id": a["id"], ..., "city": address.get("city"),
        "state": address.get("state"),
        "published_at": parse_petfinder_ts(a.get("published_at")),
        "status_changed_at": parse_petfinder_ts(a.get("status_changed_at")),
        "fetched_at": dt.datetime.now(dt.timezone.utc)}
``` -/
def _row (a : RawAnimal) (now : Int) : Except TsError Row :=
  let contact := a.contact.getD { address := none }
  let address := contact.address.getD { city := none, state := none }
  do
    let pub ← parse_petfinder_ts a.published_at
    let sc ← parse_petfinder_ts a.status_changed_at
    pure { id := a.id
           name := a.name
           type := a.type
           age := a.age
           gender := a.gender
           status := a.status
           org_id := a.organization_id
           city := address.city
           state := address.state
           published_at := pub
           status_changed_at := sc
           fetched_at := now }

/-! Upsert semantics (etl/sample_query.py, `build_upsert_sql`) -/

/-- The update applied by the `DO UPDATE SET` clause of the generated
statement: every non-key column (`name` through `fetched_at`) is overwritten
with the incoming (`EXCLUDED`) value; the key column `id` is untouched. -/
def overwriteNonKey (old incoming : Row) : Row :=
  { incoming with id := old.id }

/-- Modelled from the spec: the relational engine executing the
`INSERT ... ON CONFLICT (id) DO UPDATE SET` statement produced by
`build_upsert_sql` (the engine itself is not part of src/) — "insert if
absent, else overwrite all non-key columns".  The table is a list of rows;
a conflicting `id` updates that row in place, otherwise the row is
appended. -/
def upsertRow (table : List Row) (r : Row) : List Row :=
  if table.any (fun x => x.id == r.id) then
    table.map (fun x => if x.id == r.id then overwriteNonKey x r else x)
  else
    table ++ [r]

/-- The non-key column tuple of a row. -/
def nonKeyCols (r : Row) :
    Option String × Option String × Option String × Option String ×
    Option String × Option String × Option String × Option String ×
    Option Int × Option Int × Int :=
  (r.name, r.type, r.age, r.gender, r.status, r.org_id, r.city, r.state,
   r.published_at, r.status_changed_at, r.fetched_at)

/-! ETL orchestrator (etl/sample_query.py, `main`) -/

/-- One operation `main` performs against the sink. -/
inductive SinkOp where
  | ddl
  | upsertBatch (rows : List Row)
  | commit
  deriving Repr, DecidableEq

/-- The sequence of sink operations `main` performs, as a function of the
mapped rows.

```python
if not rows:
    print("[etl] nothing to load; exiting")
    return
with SessionLocal() as db:
    db.execute(text(DDL))
    stmt = upsert_stmt_for(db)
    db.execute(stmt, rows)
    db.commit()
``` -/
def mainSinkOps (rows : List Row) : List SinkOp :=
  if rows.isEmpty then []
  else [.ddl, .upsertBatch rows, .commit]

/-- Effect of one sink operation on the table state (`ddl` is the idempotent
`CREATE TABLE IF NOT EXISTS`, identity on an existing table; `executemany`
upserts each row in order). -/
def applySinkOp (table : List Row) : SinkOp → List Row
  | .ddl => table
  | .upsertBatch rows => rows.foldl upsertRow table
  | .commit => table

/-- Effect of a sequence of sink operations. -/
def applySinkOps (table : List Row) (ops : List SinkOp) : List Row :=
  ops.foldl applySinkOp table

/-! Dialect-aware upsert builder (etl/sample_query.py, `build_upsert_sql`) -/

/-- Embedding of `build_upsert_sql`: the exact statement text returned for
each dialect identifier.  The Postgres branch is taken only for the
identifier `"postgresql"`; every other identifier takes the SQLite/others
branch. -/
def build_upsert_sql (dialect_name : String) : String :=
  if dialect_name == "postgresql" then
    "
        INSERT INTO tmp_animals_sample
        (id, name, type, age, gender, status, org_id, city, state,
         published_at, status_changed_at, fetched_at)
        VALUES
        (:id, :name, :type, :age, :gender, :status, :org_id, :city, :state,
         (:published_at)::timestamptz,
         (:status_changed_at)::timestamptz,
         (:fetched_at)::timestamptz)
        ON CONFLICT (id) DO UPDATE SET
          name=EXCLUDED.name,
          type=EXCLUDED.type,
          age=EXCLUDED.age,
          gender=EXCLUDED.gender,
          status=EXCLUDED.status,
          org_id=EXCLUDED.org_id,
          city=EXCLUDED.city,
          state=EXCLUDED.state,
          published_at=EXCLUDED.published_at,
          status_changed_at=EXCLUDED.status_changed_at,
          fetched_at=EXCLUDED.fetched_at
        "
  else
    "
    INSERT INTO tmp_animals_sample
    (id, name, type, age, gender, status, org_id, city, state,
     published_at, status_changed_at, fetched_at)
    VALUES
    (:id, :name, :type, :age, :gender, :status, :org_id, :city, :state,
     :published_at, :status_changed_at, :fetched_at)
    ON CONFLICT(id) DO UPDATE SET
      name=excluded.name,
      type=excluded.type,
      age=excluded.age,
      gender=excluded.gender,
      status=excluded.status,
      org_id=excluded.org_id,
      city=excluded.city,
      state=excluded.state,
      published_at=excluded.published_at,
      status_changed_at=excluded.status_changed_at,
      fetched_at=excluded.fetched_at
    "

/-- Does the character list start with the given pattern? -/
def beginsWith : List Char → List Char → Bool
  | _, [] => true
  | [], _ :: _ => false
  | c :: cs, p :: ps => c == p && beginsWith cs ps

/-- Number of positions at which `pat` begins in `l` (for the patterns used
below no two occurrences can overlap, so this is the plain occurrence
count). -/
def countSub (l pat : List Char) : Nat :=
  match l with
  | [] => 0
  | _ :: cs => (if beginsWith l pat then 1 else 0) + countSub cs pat

/-- Number of occurrences of `pat` in `s`. -/
def occurrences (s pat : String) : Nat := countSub s.toList pat.toList

/-- Left-to-right non-overlapping replacement of `pat` by `rep`, with an
explicit fuel so the recursion is structural (fuel `length + 1` always
suffices since every step consumes at least one character). -/
def replaceFuel : Nat → List Char → List Char → List Char → List Char
  | 0, l, _, _ => l
  | _ + 1, [], _, _ => []
  | fuel + 1, c :: cs, pat, rep =>
      if beginsWith (c :: cs) pat && !pat.isEmpty then
        rep ++ replaceFuel fuel (List.drop pat.length (c :: cs)) pat rep
      else
        c :: replaceFuel fuel cs pat rep

/-- Python `str.replace`-style substring replacement. -/
def replaceAll (s pat rep : String) : String :=
  String.mk (replaceFuel (s.toList.length + 1) s.toList pat.toList rep.toList)

/-- Split into maximal whitespace-free runs. -/
def tokensAux : List Char → List Char → List (List Char)
  | [], acc => if acc.isEmpty then [] else [acc.reverse]
  | c :: cs, acc =>
      if c.isWhitespace then
        if acc.isEmpty then tokensAux cs []
        else acc.reverse :: tokensAux cs []
      else tokensAux cs (c :: acc)

/-- Rejoin tokens with single spaces. -/
def joinTokens : List (List Char) → List Char
  | [] => []
  | [t] => t
  | t :: ts => t ++ ' ' :: joinTokens ts

/-- Collapse all whitespace runs to single spaces (and drop leading/trailing
whitespace). -/
def collapseWS (s : String) : String :=
  String.mk (joinTokens (tokensAux s.toList []))

/-- Remove the three explicit `::timestamptz` casts of the bound timestamp
parameters, leaving the bare bound parameter. -/
def stripCasts (s : String) : String :=
  replaceAll
    (replaceAll (replaceAll s "(:published_at)::timestamptz" ":published_at")
      "(:status_changed_at)::timestamptz" ":status_changed_at")
    "(:fetched_at)::timestamptz" ":fetched_at"

/-- Normalization that erases exactly the dialect-specific aspects: the
timestamp casts, the conflict-clause spelling (`ON CONFLICT(` vs
`ON CONFLICT (`, `EXCLUDED` vs `excluded` case), and layout whitespace. -/
def normalizeUpsert (s : String) : String :=
  collapseWS
    (String.mk
      (((replaceAll (stripCasts s) "ON CONFLICT(" "ON CONFLICT (").toList).map
        Char.toLower))

/-! Concrete sample values used by witnesses -/

/-- A row with the given id and default (null / zero) non-key columns. -/
def sampleRow (i : Int) : Row :=
  { id := i, name := none, type := none, age := none, gender := none,
    status := none, org_id := none, city := none, state := none,
    published_at := none, status_changed_at := none, fetched_at := 0 }

/-- A row with the given id, a name, and a fetched_at clock. -/
def sampleRow2 (i : Int) (nm : String) (t : Int) : Row :=
  { sampleRow i with name := some nm, fetched_at := t }

/-! Theorems -/

/-- C1: executing the generated upsert statement on a table state that
already has a row with the incoming row's `id` leaves the row count unchanged
and overwrites every non-key column of that row with the incoming values;
with no such row it inserts the row; it never deletes a row (every id present
before is present after) and never produces two rows with the same id. -/
theorem c1_upsert_semantics (table : List Row) (r : Row) :
    ((∃ x ∈ table, x.id = r.id) →
        (upsertRow table r).length = table.length ∧
        ∀ x ∈ upsertRow table r, x.id = r.id → nonKeyCols x = nonKeyCols r) ∧
    ((¬ ∃ x ∈ table, x.id = r.id) →
        upsertRow table r = table ++ [r]) ∧
    (∀ x ∈ table, ∃ y ∈ upsertRow table r, y.id = x.id) ∧
    ((table.map Row.id).Nodup → ((upsertRow table r).map Row.id).Nodup) := by
  refine ⟨?_, ?_, ?_, ?_⟩
  · intro hex
    have hany : table.any (fun x => x.id == r.id) = true := by
      obtain ⟨x, hx, hid⟩ := hex
      exact List.any_eq_true.mpr ⟨x, hx, by simp [hid]⟩
    rw [upsertRow, if_pos hany]
    refine ⟨List.length_map _ _, ?_⟩
    intro x hx hid
    obtain ⟨y, _, hy⟩ := List.mem_map.mp hx
    by_cases hyc : y.id = r.id
    · rw [if_pos (by simp [hyc])] at hy
      subst hy
      rfl
    · rw [if_neg (by simp [hyc])] at hy
      subst hy
      exact absurd hid hyc
  · intro hnex
    have hany : table.any (fun x => x.id == r.id) = false := by
      rw [List.any_eq_false]
      intro x hx
      simp only [beq_iff_eq]
      exact fun h => hnex ⟨x, hx, h⟩
    rw [upsertRow, hany]
    simp
  · intro x hx
    rw [upsertRow]
    by_cases hany : table.any (fun y => y.id == r.id) = true
    · rw [if_pos hany]
      refine ⟨if x.id = r.id then overwriteNonKey x r else x, ?_, ?_⟩
      · exact List.mem_map.mpr ⟨x, hx, by by_cases h : x.id = r.id <;> simp [h]⟩
      · by_cases h : x.id = r.id <;> simp [h, overwriteNonKey]
    · rw [if_neg hany]
      exact ⟨x, List.mem_append_left _ hx, rfl⟩
  · intro hnd
    rw [upsertRow]
    by_cases hany : table.any (fun y => y.id == r.id) = true
    · rw [if_pos hany]
      have : (table.map (fun x => if x.id == r.id then overwriteNonKey x r else x)).map
          Row.id = table.map Row.id := by
        rw [List.map_map]
        refine List.map_congr_left ?_
        intro x _
        by_cases h : x.id = r.id <;> simp [h, overwriteNonKey]
      rw [this]
      exact hnd
    · rw [if_neg hany]
      have hnotin : r.id ∉ table.map Row.id := by
        intro hmem
        obtain ⟨x, hx, hxid⟩ := List.mem_map.mp hmem
        rw [List.any_eq_true] at hany
        exact hany ⟨x, hx, by simp [hxid]⟩
      simp only [List.map_append, List.map_cons, List.map_nil]
      exact List.Nodup.append hnd (List.nodup_singleton _)
        (by simpa [List.disjoint_singleton] using hnotin)

/-- Witness for C1 at a concrete table: upserting a row whose id is already
present keeps the row count at 1, and the stored non-key columns become the
incoming ones. -/
theorem c1_upsert_semantics_witness :
    (upsertRow [sampleRow 1] (sampleRow2 1 "new" 7)).length = 1 ∧
    upsertRow [sampleRow 2] (sampleRow 1) = [sampleRow 2, sampleRow 1] :=
  ⟨((c1_upsert_semantics [sampleRow 1] (sampleRow2 1 "new" 7)).1
      ⟨sampleRow 1, by simp, rfl⟩).1,
   (c1_upsert_semantics [sampleRow 2] (sampleRow 1)).2.1 (by decide)⟩

/-- C2: an authenticated request made with a cached (truthy) token at
`now < expiry - 60` performs no token exchange and leaves the cached token
unchanged; a request made at `now ≥ expiry - 60`, or with no cached token,
performs exactly one client-credentials exchange, storing the fresh token
with expiry `now + expires_in` (default 3600). -/
theorem c2_token_lifecycle (st : ClientState) (now : Int) (resp : TokenResponse) :
    (truthyToken st.token = true → now < st.token_exp - 60 →
        ensure_token st now resp = (st, false)) ∧
    (truthyToken st.token = false ∨ st.token_exp - 60 ≤ now →
        ensure_token st now resp =
          ({ token := some resp.access_token,
             token_exp := now + resp.expires_in.getD 3600 }, true)) := by
  constructor
  · intro h1 h2
    rw [ensure_token, if_pos ⟨h1, h2⟩]
  · intro h
    rw [ensure_token, if_neg]
    rintro ⟨ht, hlt⟩
    rcases h with h | h
    · rw [h] at ht
      exact Bool.false_ne_true ht
    · exact absurd hlt (not_lt.mpr h)

/-- Witness for C2: a client holding token `"tok"` with expiry 5000 reuses it
at time 1000; the fresh client (no cached token) exchanges at time 1000. -/
theorem c2_token_lifecycle_witness :
    ensure_token ⟨some "tok", 5000⟩ 1000 ⟨"B", none⟩ = (⟨some "tok", 5000⟩, false) ∧
    ensure_token initClientState 1000 ⟨"A", some 3600⟩ = (⟨some "A", 4600⟩, true) :=
  ⟨(c2_token_lifecycle ⟨some "tok", 5000⟩ 1000 ⟨"B", none⟩).1 rfl (by decide),
   (c2_token_lifecycle initClientState 1000 ⟨"A", some 3600⟩).2 (Or.inl rfl)⟩

/-- C3: a first 401 response causes the cached token to be invalidated
and the request to be retried exactly once with a freshly obtained token (the
second GET carries the token of the refresh exchange); a non-success second
response — including a second 401 — is surfaced as an error with no further
requests; a non-success first response other than 401 is surfaced immediately
with a single request. -/
theorem c3_single_retry (st : ClientState) (now : Int) (tok1 tok2 : TokenResponse)
    (r1 r2 : HttpResp) :
    (r1.status = 401 →
        (get st now tok1 tok2 r1 r2).usedTokens.length = 2 ∧
        (get st now tok1 tok2 r1 r2).usedTokens.getLast? =
          some (some tok2.access_token) ∧
        (isSuccess r2.status = true →
          (get st now tok1 tok2 r1 r2).result = .ok r2.body) ∧
        (isSuccess r2.status = false →
          (get st now tok1 tok2 r1 r2).result = .error r2.status)) ∧
    (r1.status ≠ 401 → isSuccess r1.status = false →
        (get st now tok1 tok2 r1 r2).usedTokens.length = 1 ∧
        (get st now tok1 tok2 r1 r2).result = .error r1.status) ∧
    (r1.status ≠ 401 → isSuccess r1.status = true →
        (get st now tok1 tok2 r1 r2).usedTokens.length = 1 ∧
        (get st now tok1 tok2 r1 r2).result = .ok r1.body) := by
  have hfresh : ∀ st1 : ClientState,
      ensure_token { st1 with token := none } now tok2 =
        ({ token := some tok2.access_token,
           token_exp := now + tok2.expires_in.getD 3600 }, true) := by
    intro st1
    rw [ensure_token, if_neg]
    rintro ⟨ht, -⟩
    exact Bool.false_ne_true ht
  refine ⟨?_, ?_, ?_⟩
  · intro h401
    simp only [get, h401, if_pos, hfresh]
    refine ⟨rfl, rfl, ?_, ?_⟩ <;> intro hs <;> simp [hs]
  · intro hne hfail
    simp only [get, if_neg hne]
    simp [hfail]
  · intro hne hok
    simp only [get, if_neg hne]
    simp [hok]

/-- Witness for C3: a 401 followed by a 200 yields the retried response using
the freshly exchanged token `"B"`; a 500 first response is surfaced after one
request. -/
theorem c3_single_retry_witness :
    (get initClientState 0 ⟨"A", none⟩ ⟨"B", none⟩ ⟨401, "expired"⟩ ⟨200, "ok"⟩).result
        = .ok "ok" ∧
    (get initClientState 0 ⟨"A", none⟩ ⟨"B", none⟩ ⟨401, "expired"⟩ ⟨200, "ok"⟩).usedTokens.getLast?
        = some (some "B") ∧
    (get initClientState 0 ⟨"A", none⟩ ⟨"B", none⟩ ⟨500, "boom"⟩ ⟨200, "ok"⟩).result
        = .error 500 :=
  ⟨((c3_single_retry initClientState 0 ⟨"A", none⟩ ⟨"B", none⟩ ⟨401, "expired"⟩
        ⟨200, "ok"⟩).1 rfl).2.2.1 (by decide),
   ((c3_single_retry initClientState 0 ⟨"A", none⟩ ⟨"B", none⟩ ⟨401, "expired"⟩
        ⟨200, "ok"⟩).1 rfl).2.1,
   ((c3_single_retry initClientState 0 ⟨"A", none⟩ ⟨"B", none⟩ ⟨500, "boom"⟩
        ⟨200, "ok"⟩).2.1 (by decide) (by decide)).2⟩

/-! Pagination lemmas -/

/-- The trace is empty exactly when the response supply is empty. -/
lemma iter_trace_nil_iff (rs : List PageResp) (p : Int) :
    (iter_animals rs p).2.1 = [] ↔ rs = [] := by
  cases rs with
  | nil => simp [iter_animals]
  | cons r rest =>
      constructor
      · intro h
        rw [iter_animals] at h
        by_cases hs : stopAt r p = true
        · simp [hs] at h
        · simp [hs] at h
      · intro h
        exact absurd h (List.cons_ne_nil r rest)

/-- The first element of a nonempty trace is the starting page paired with
the first response. -/
lemma iter_trace_head (r : PageResp) (rest : List PageResp) (p : Int) :
    (iter_animals (r :: rest) p).2.1.head? = some (p, r) := by
  rw [iter_animals]
  by_cases hs : stopAt r p = true <;> simp [hs]

/-- Adjacent trace entries obey the source's `q["page"] = cur + 1` rule: the
page of each request after the first is the previously reported
`current_page` plus one. -/
lemma iter_chain_next (rs : List PageResp) (p : Int) :
    List.Chain' (fun a b => b.1 = curOf a.2 a.1 + 1) (iter_animals rs p).2.1 := by
  induction rs generalizing p with
  | nil => simp [iter_animals]
  | cons r rest ih =>
      rw [iter_animals]
      by_cases hs : stopAt r p = true
      · simp [hs]
      · simp only [hs, Bool.false_eq_true, if_false]
        cases rest with
        | nil => simp [iter_animals]
        | cons r' rest' =>
            refine List.Chain'.cons' (ih (curOf r p + 1)) ?_
            intro y hy
            rw [iter_trace_head r' rest' (curOf r p + 1)] at hy
            cases hy
            rfl

/-- Under an honest server the requested pages strictly increase. -/
lemma iter_chain_lt (rs : List PageResp) (p : Int) (h : honest rs p = true) :
    List.Chain' (· < ·) ((iter_animals rs p).2.1.map Prod.fst) := by
  induction rs generalizing p with
  | nil => simp [iter_animals]
  | cons r rest ih =>
      rw [honest, Bool.and_eq_true, decide_eq_true_eq] at h
      obtain ⟨hle, hrest⟩ := h
      rw [iter_animals]
      by_cases hs : stopAt r p = true
      · simp [hs]
      · simp only [hs, Bool.false_eq_true, if_false, List.map_cons]
        cases rest with
        | nil => simp [iter_animals]
        | cons r' rest' =>
            refine List.Chain'.cons' (ih (curOf r p + 1) hrest) ?_
            intro y hy
            rw [List.head?_map, iter_trace_head r' rest' (curOf r p + 1)] at hy
            have hy' : y = curOf r p + 1 := by
              simpa [eq_comm] using hy
            rw [hy']
            exact lt_of_le_of_lt hle (lt_add_one _)

/-- The yielded records are exactly the record arrays of the consumed
responses, concatenated in consumption order. -/
lemma iter_yield_join (rs : List PageResp) (p : Int) :
    (iter_animals rs p).1 =
      ((iter_animals rs p).2.1.map (fun pr => animalsOf pr.2)).flatten := by
  induction rs generalizing p with
  | nil => simp [iter_animals]
  | cons r rest ih =>
      rw [iter_animals]
      by_cases hs : stopAt r p = true
      · simp [hs]
      · simp [hs, ih (curOf r p + 1)]

/-- Every consumed response except possibly the last failed the break test. -/
lemma iter_dropLast_nostop (rs : List PageResp) (p : Int) :
    ∀ pr ∈ (iter_animals rs p).2.1.dropLast, stopAt pr.2 pr.1 = false := by
  induction rs generalizing p with
  | nil => simp [iter_animals]
  | cons r rest ih =>
      rw [iter_animals]
      by_cases hs : stopAt r p = true
      · simp [hs]
      · simp only [hs, Bool.false_eq_true, if_false]
        intro pr hpr
        rcases List.eq_nil_or_concat (iter_animals rest (curOf r p + 1)).2.1 with
          hnil | ⟨l', a, hconcat⟩
        · rw [hnil] at hpr
          simp at hpr
        · rw [hconcat, List.concat_eq_append, ← List.cons_append,
            List.dropLast_concat] at hpr
          rcases List.mem_cons.mp hpr with heq | hmem
          · subst heq
            simpa using hs
          · have := ih (curOf r p + 1)
            rw [hconcat, List.concat_eq_append, List.dropLast_concat] at this
            exact this pr hmem

/-- The loop broke (within the supplied responses) iff the last consumed
response passed the break test `cur >= total`. -/
lemma iter_done_iff (rs : List PageResp) (p : Int) :
    (iter_animals rs p).2.2 = true ↔
      ∃ pr, (iter_animals rs p).2.1.getLast? = some pr ∧ stopAt pr.2 pr.1 = true := by
  induction rs generalizing p with
  | nil => simp [iter_animals]
  | cons r rest ih =>
      rw [iter_animals]
      by_cases hs : stopAt r p = true
      · simp [hs]
      · simp only [hs, Bool.false_eq_true, if_false]
        cases hrest : rest with
        | nil =>
            subst hrest
            simp [iter_animals, hs]
        | cons r' rest' =>
            subst hrest
            have hne : (iter_animals (r' :: rest') (curOf r p + 1)).2.1 ≠ [] := by
              rw [ne_eq, iter_trace_nil_iff]
              exact List.cons_ne_nil r' rest'
            obtain ⟨t, ts, hT⟩ := List.exists_cons_of_ne_nil hne
            rw [hT, List.getLast?_cons_cons]
            have := ih (curOf r p + 1)
            rw [hT] at this
            exact this

/-- C4 counterexample: the claim quantifies over every finite sequence of
server page responses, but when a response misreports `current_page` below
the requested page the next request is not a higher page: with a first
response reporting `current_page = 0, total_pages = 2`, the client requests
page 1 and then page 1 again — the requested pages `[1, 1]` are not strictly
increasing. -/
theorem c4_counterexample :
    requestedPages
        [{ animals := some [], pagination := some { current_page := some 0, total_pages := some 2 } },
         { animals := some [], pagination := some { current_page := some 1, total_pages := some 1 } }] 1
      = [1, 1] ∧
    ¬ List.Chain' (· < ·)
        (requestedPages
          [{ animals := some [], pagination := some { current_page := some 0, total_pages := some 2 } },
           { animals := some [], pagination := some { current_page := some 1, total_pages := some 1 } }] 1) := by
  refine ⟨rfl, fun h => ?_⟩
  have h' : List.Chain' (· < ·) ([1, 1] : List Int) := h
  exact absurd (List.chain'_cons.mp h').1 (lt_irrefl (1 : Int))

/-- C4 (amended): for every finite sequence of server page responses in
which each reported `current_page` is at least the page it was requested for
(as for an honest server), `iter_animals` requests pages starting at page 1
and strictly increasing; after a response reporting `current_page = c` the
next request is for page `c + 1` (unconditionally); it yields every element
of each page's record array in page order; it terminates exactly when a
response satisfies `current_page >= total_pages`; and the initial query uses
page 1 and page size 100 unless the caller overrides them. -/
theorem c4_pagination (rs : List PageResp) :
    (rs ≠ [] → (requestedPages rs 1).head? = some 1) ∧
    (honest rs 1 = true → List.Chain' (· < ·) (requestedPages rs 1)) ∧
    List.Chain' (fun a b => b.1 = curOf a.2 a.1 + 1) (iter_animals rs 1).2.1 ∧
    (iter_animals rs 1).1 =
      ((iter_animals rs 1).2.1.map (fun pr => animalsOf pr.2)).flatten ∧
    (∀ pr ∈ (iter_animals rs 1).2.1.dropLast, stopAt pr.2 pr.1 = false) ∧
    ((iter_animals rs 1).2.2 = true ↔
      ∃ pr, (iter_animals rs 1).2.1.getLast? = some pr ∧ stopAt pr.2 pr.1 = true) ∧
    initQuery none none = (100, 1) ∧
    (∀ l p, initQuery (some l) (some p) = (l, p)) := by
  refine ⟨?_, fun h => by simpa [requestedPages] using iter_chain_lt rs 1 h,
    iter_chain_next rs 1, iter_yield_join rs 1, iter_dropLast_nostop rs 1,
    iter_done_iff rs 1, rfl, fun l p => rfl⟩
  intro hne
  obtain ⟨r, rest, hrr⟩ := List.exists_cons_of_ne_nil hne
  subst hrr
  rw [requestedPages, List.head?_map, iter_trace_head]
  rfl

/-- Witness for C4 (amended) on a concrete honest two-page server: the
requested pages start at 1 and strictly increase. -/
theorem c4_pagination_witness :
    (requestedPages
        [{ animals := some [⟨1⟩, ⟨2⟩], pagination := some { current_page := some 1, total_pages := some 2 } },
         { animals := some [⟨3⟩], pagination := some { current_page := some 2, total_pages := some 2 } }] 1).head?
      = some 1 ∧
    List.Chain' (· < ·)
      (requestedPages
        [{ animals := some [⟨1⟩, ⟨2⟩], pagination := some { current_page := some 1, total_pages := some 2 } },
         { animals := some [⟨3⟩], pagination := some { current_page := some 2, total_pages := some 2 } }] 1) :=
  ⟨(c4_pagination
      [{ animals := some [⟨1⟩, ⟨2⟩], pagination := some { current_page := some 1, total_pages := some 2 } },
       { animals := some [⟨3⟩], pagination := some { current_page := some 2, total_pages := some 2 } }]).1
      (by decide),
   (c4_pagination
      [{ animals := some [⟨1⟩, ⟨2⟩], pagination := some { current_page := some 1, total_pages := some 2 } },
       { animals := some [⟨3⟩], pagination := some { current_page := some 2, total_pages := some 2 } }]).2.1
      (by decide)⟩

/-- C5: a response without the record-array key contributes an empty page
(the run simply moves on, nothing is raised — the embedding is total); a
response without pagination metadata defaults to `total_pages = current_page`
and therefore terminates iteration after that page; a first response missing
both keys makes the run yield nothing and terminate. -/
theorem c5_missing_keys (r : PageResp) (p : Int) (rest : List PageResp) :
    (r.animals = none → animalsOf r = []) ∧
    (r.animals = none →
      (iter_animals (r :: rest) p).1 =
        (if stopAt r p then [] else (iter_animals rest (curOf r p + 1)).1)) ∧
    (r.pagination = none → stopAt r p = true) ∧
    iter_animals [({ animals := none, pagination := none } : PageResp)] 1 =
      ([], [(1, { animals := none, pagination := none })], true) := by
  refine ⟨?_, ?_, ?_, by decide⟩
  · intro h
    rw [animalsOf, h]
    rfl
  · intro h
    rw [iter_animals]
    by_cases hs : stopAt r p = true <;> simp [hs, animalsOf, h]
  · intro h
    simp [stopAt, curOf, totalOf, h]

/-- Witness for C5 at the concrete both-keys-missing response. -/
theorem c5_missing_keys_witness :
    animalsOf { animals := none, pagination := none } = [] ∧
    stopAt { animals := none, pagination := none } 1 = true :=
  ⟨(c5_missing_keys { animals := none, pagination := none } 1 []).1 rfl,
   (c5_missing_keys { animals := none, pagination := none } 1 []).2.2.1 rfl⟩

/-- C6: the timestamp normalizer returns null for null/empty input;
rewrites a trailing `±HHMM` offset to `±HH:MM` (a no-op when the offset is
already colon-separated or absent); parses and converts to UTC — in
particular `"2025-08-16T12:28:02+0000"` yields the UTC instant
`2025-08-16 12:28:02Z`; and a string the parser rejects after rewriting
propagates as a parse error rather than being caught. -/
theorem c6_timestamp_normalizer :
    parse_petfinder_ts none = .ok none ∧
    parse_petfinder_ts (some "") = .ok none ∧
    parse_petfinder_ts (some "2025-08-16T12:28:02+0000")
      = .ok (some (utcEpoch 2025 8 16 12 28 2)) ∧
    fixOffsetColon "2025-08-16T12:28:02+0000" = "2025-08-16T12:28:02+00:00" ∧
    fixOffsetColon "2025-08-16T12:28:02+00:00" = "2025-08-16T12:28:02+00:00" ∧
    fixOffsetColon "2025-08-16T12:28:02" = "2025-08-16T12:28:02" ∧
    (∀ s : String, s ≠ "" → fromisoformat (fixOffsetColon (pyStrip s)) = none →
        parse_petfinder_ts (some s) = .error .parseError) ∧
    (∀ s : String, s ≠ "" → ∀ d, fromisoformat (fixOffsetColon (pyStrip s)) = some d →
        parse_petfinder_ts (some s) = .ok (some (toUTCEpoch d))) := by
  refine ⟨rfl, rfl, rfl, rfl, rfl, rfl, ?_, ?_⟩
  · intro s hs hparse
    have hbeq : (s == "") = false := by
      simpa using hs
    simp only [parse_petfinder_ts, hbeq, Bool.false_eq_true, if_false, hparse]
  · intro s hs d hparse
    have hbeq : (s == "") = false := by
      simpa using hs
    simp only [parse_petfinder_ts, hbeq, Bool.false_eq_true, if_false, hparse]

/-- Witness for C6: `"garbage"` is rejected by the parser and surfaces as a
propagated parse error; a valid aware timestamp parses to its UTC instant. -/
theorem c6_timestamp_normalizer_witness :
    parse_petfinder_ts (some "garbage") = .error .parseError ∧
    parse_petfinder_ts (some "2025-08-17T00:00:00+0000")
      = .ok (some (utcEpoch 2025 8 17 0 0 0)) :=
  ⟨(c6_timestamp_normalizer.2.2.2.2.2.2.1) "garbage" (by decide) rfl,
   (c6_timestamp_normalizer.2.2.2.2.2.2.2) "2025-08-17T00:00:00+0000"
      (by decide) ⟨2025, 8, 17, 0, 0, 0, 0⟩ rfl⟩

/-- C7: the row mapper takes `city`/`state` from the nested
contact→address structure — when both levels are present the row's city and
state are exactly the address's city and state — yielding null for both when
the contact level or the address level is missing, and sets `fetched_at` to
the mapping-time clock `now` — never to a value from the source record. -/
theorem c7_row_mapper (a : RawAnimal) (now : Int) (r : Row)
    (h : _row a now = .ok r) :
    (∀ c addr, a.contact = some c → c.address = some addr →
        r.city = addr.city ∧ r.state = addr.state) ∧
    (a.contact = none → r.city = none ∧ r.state = none) ∧
    (∀ c, a.contact = some c → c.address = none →
        r.city = none ∧ r.state = none) ∧
    r.fetched_at = now := by
  rw [_row] at h
  cases hp : parse_petfinder_ts a.published_at with
  | error e =>
      rw [hp] at h
      simp [Bind.bind, Except.bind] at h
  | ok pub =>
      cases hsc : parse_petfinder_ts a.status_changed_at with
      | error e =>
          rw [hp, hsc] at h
          simp [Bind.bind, Except.bind] at h
      | ok sc =>
          rw [hp, hsc] at h
          simp only [Bind.bind, Except.bind, Pure.pure, Except.pure,
            Except.ok.injEq] at h
          subst h
          refine ⟨?_, ?_, ?_, rfl⟩
          · intro c addr hc ha
            simp [hc, ha]
          · intro hc
            simp [hc]
          · intro c hc ha
            simp [hc, ha]

/-- A raw record with no contact structure and no timestamps. -/
def sampleRaw : RawAnimal :=
  { id := 7, name := none, type := none, age := none, gender := none,
    status := none, organization_id := none, contact := none,
    published_at := none, status_changed_at := none }

/-- The row `_row` produces for `sampleRaw` at clock 5. -/
def sampleMapped : Row :=
  { id := 7, name := none, type := none, age := none, gender := none,
    status := none, org_id := none, city := none, state := none,
    published_at := none, status_changed_at := none, fetched_at := 5 }

/-- A raw record whose contact→address nesting is fully present. -/
def sampleRawAddr : RawAnimal :=
  { sampleRaw with
    id := 8,
    contact := some { address := some { city := some "Austin", state := some "TX" } } }

/-- The row `_row` produces for `sampleRawAddr` at clock 9. -/
def sampleMappedAddr : Row :=
  { id := 8, name := none, type := none, age := none, gender := none,
    status := none, org_id := none, city := some "Austin", state := some "TX",
    published_at := none, status_changed_at := none, fetched_at := 9 }

/-- Witness for C7: with the nesting present the mapped row carries the
address's city and state; with the contact missing both are null; and
`fetched_at` is the mapping-time clock. -/
theorem c7_row_mapper_witness :
    (sampleMappedAddr.city = some "Austin" ∧ sampleMappedAddr.state = some "TX") ∧
    (sampleMapped.city = none ∧ sampleMapped.state = none) ∧
    sampleMapped.fetched_at = 5 :=
  ⟨(c7_row_mapper sampleRawAddr 9 sampleMappedAddr rfl).1
      { address := some { city := some "Austin", state := some "TX" } }
      { city := some "Austin", state := some "TX" } rfl rfl,
   (c7_row_mapper sampleRaw 5 sampleMapped rfl).2.1 rfl,
   (c7_row_mapper sampleRaw 5 sampleMapped rfl).2.2.2⟩

/-- C8: the upsert builder is a pure function of the dialect identifier
with exactly two possible statement texts; the two texts are distinct; the
PostgreSQL text casts exactly the three bound timestamp parameters to
`timestamptz` while the other text has no casts; the conflict clauses differ
as `ON CONFLICT (id) DO UPDATE SET` vs `ON CONFLICT(id) DO UPDATE SET`; and
once the casts, the conflict-clause spelling and layout whitespace/case are
normalized away the two texts coincide — they differ in nothing else. -/
theorem c8_dialect_builder :
    (∀ d : String, build_upsert_sql d = build_upsert_sql "postgresql" ∨
        build_upsert_sql d = build_upsert_sql "sqlite") ∧
    build_upsert_sql "postgresql" ≠ build_upsert_sql "sqlite" ∧
    occurrences (build_upsert_sql "postgresql") "(:published_at)::timestamptz" = 1 ∧
    occurrences (build_upsert_sql "postgresql") "(:status_changed_at)::timestamptz" = 1 ∧
    occurrences (build_upsert_sql "postgresql") "(:fetched_at)::timestamptz" = 1 ∧
    occurrences (build_upsert_sql "postgresql") "::timestamptz" = 3 ∧
    occurrences (build_upsert_sql "sqlite") "::timestamptz" = 0 ∧
    occurrences (build_upsert_sql "postgresql") "ON CONFLICT (id) DO UPDATE SET" = 1 ∧
    occurrences (build_upsert_sql "sqlite") "ON CONFLICT(id) DO UPDATE SET" = 1 ∧
    normalizeUpsert (build_upsert_sql "postgresql")
      = normalizeUpsert (build_upsert_sql "sqlite") := by
  refine ⟨?_, by decide, by decide, by decide, by decide, by decide, by decide,
    by decide, by decide, by decide⟩
  intro d
  by_cases h : (d == "postgresql") = true
  · left
    rw [build_upsert_sql, if_pos h]
    rfl
  · right
    rw [build_upsert_sql, if_neg h]
    rfl

/-- Witness for C8: the two statement texts, computed concretely, are
distinct and the casting variant carries exactly three casts. -/
theorem c8_dialect_builder_witness :
    build_upsert_sql "postgresql" ≠ build_upsert_sql "sqlite" ∧
    occurrences (build_upsert_sql "postgresql") "::timestamptz" = 3 ∧
    occurrences (build_upsert_sql "sqlite") "::timestamptz" = 0 :=
  ⟨c8_dialect_builder.2.1, c8_dialect_builder.2.2.2.2.2.1,
   c8_dialect_builder.2.2.2.2.2.2.1⟩

/-- C10: the builder is total over all dialect identifier strings with
exactly two outputs: `"postgresql"` (exactly) selects the casting variant and
every other identifier — e.g. `"mysql"` — selects the same cast-free
statement used for SQLite. -/
theorem c10_builder_total (d : String) :
    (d = "postgresql" → build_upsert_sql d = build_upsert_sql "postgresql") ∧
    (d ≠ "postgresql" → build_upsert_sql d = build_upsert_sql "sqlite") ∧
    build_upsert_sql "mysql" = build_upsert_sql "sqlite" ∧
    occurrences (build_upsert_sql "mysql") "::timestamptz" = 0 ∧
    build_upsert_sql "postgresql" ≠ build_upsert_sql "sqlite" := by
  refine ⟨fun h => by rw [h], ?_, by rfl, by decide, by decide⟩
  intro h
  have hbeq : (d == "postgresql") = false := by
    simpa using h
  rw [build_upsert_sql, hbeq]
  rfl

/-- Witness for C10 at the unrecognized identifier `"mysql"`: it selects the
SQLite statement text. -/
theorem c10_builder_total_witness :
    build_upsert_sql "mysql" = build_upsert_sql "sqlite" :=
  (c10_builder_total "mysql").2.1 (by decide)

/-- C9: when the fetch-and-map phase produces zero rows, `main` performs
no sink operation at all — no DDL, no upsert, no commit — leaving any sink
state unchanged; with at least one row it performs exactly DDL, one batched
upsert, and one commit. -/
theorem c9_empty_run (rows : List Row) :
    (rows = [] → mainSinkOps rows = [] ∧
        ∀ table, applySinkOps table (mainSinkOps rows) = table) ∧
    (rows ≠ [] →
        mainSinkOps rows = [.ddl, .upsertBatch rows, .commit]) := by
  constructor
  · rintro rfl
    exact ⟨rfl, fun table => rfl⟩
  · intro h
    rw [mainSinkOps, if_neg]
    simpa using h

/-- Witness for C9: the empty run touches nothing, even on a nonempty sink
table. -/
theorem c9_empty_run_witness :
    mainSinkOps [] = [] ∧
    applySinkOps [sampleRow 1] (mainSinkOps []) = [sampleRow 1] :=
  ⟨((c9_empty_run []).1 rfl).1, ((c9_empty_run []).1 rfl).2 [sampleRow 1]⟩

end Petfinder
